import Mathlib

/-!
Verification of the my-movie-explorer media catalog application.

The development shallowly embeds the core logic of the repository:
the pagination page-window computation (`getPageNumbers`, present in two
revisions of `components/common/PaginationControls.tsx`), the page-URL
construction (`createPageURL` / `createPageUrl`), the search short-circuit
of `lib/server/tmdb-api.ts`, the trailer selection of
`app/[mediaType]/[id]/page.tsx`, the image-URL fallbacks, the detail-page
fetch effect, and the `app/api/media-details/route.ts` request validation.
Machine numbers are modelled as `Int` (page indices are small integers in
the source; no overflow is reachable), fallible operations return explicit
outcome types, and network calls are represented by explicit request
constructors so that "no network call happens" is expressible.
-/

namespace MovieExplorer

/-- An entry of the pagination UI sequence: a concrete page number or the
ellipsis marker pushed by the source as the string literal of three dots. -/
inductive PageEntry where
  | page (n : Int)
  | dots
deriving DecidableEq, Repr

/-- `n` consecutive integers starting at `a`. -/
def intRangeAux : Nat → Int → List Int
  | 0, _ => []
  | n + 1, a => a :: intRangeAux n (a + 1)

/-- The integer interval `[a, b]` as a list, matching the JS loop
for i = a; i <= b; i++ push(i). Empty when `b < a`. -/
def intRange (a b : Int) : List Int :=
  intRangeAux (b + 1 - a).toNat a

/-- Window start of the part_003 revision of getPageNumbers:
Math.max(1, currentPage - Math.floor(7 / 2) + 1). -/
def startA (currentPage : Int) : Int := max 1 (currentPage - 3 + 1)

/-- Window end of the part_003 revision of getPageNumbers:
Math.min(totalPages, startPage + 7 - 1). -/
def endA (currentPage totalPages : Int) : Int :=
  min totalPages (startA currentPage + 6)

/-- getPageNumbers from the part_003 revision of PaginationControls.tsx
(maxPagesToShow = 7). -/
def getPageNumbersA (currentPage totalPages : Int) : List PageEntry :=
  if totalPages ≤ 7 then
    (intRange 1 totalPages).map PageEntry.page
  else
    (if 1 < startA currentPage then
        PageEntry.page 1 :: (if 2 < startA currentPage then [PageEntry.dots] else [])
      else [])
    ++ (intRange (startA currentPage) (endA currentPage totalPages)).map PageEntry.page
    ++ (if endA currentPage totalPages < totalPages then
          (if endA currentPage totalPages < totalPages - 1 then [PageEntry.dots] else [])
          ++ [PageEntry.page totalPages]
        else [])

/-- Raw window start of the part_004 revision:
Math.max(2, currentPage - Math.floor(5 / 2)). -/
def startB0 (currentPage : Int) : Int := max 2 (currentPage - 2)

/-- Raw window end of the part_004 revision:
Math.min(totalPages - 1, currentPage + Math.floor(5 / 2)). -/
def endB0 (currentPage totalPages : Int) : Int :=
  min (totalPages - 1) (currentPage + 2)

/-- Window start of the part_004 revision after the boundary adjustment
(else-if branch: currentPage > totalPages - 2 sets startPage to
totalPages - 5 + 1). -/
def startB (currentPage totalPages : Int) : Int :=
  if currentPage < 4 then startB0 currentPage
  else if totalPages - 2 < currentPage then totalPages - 4
  else startB0 currentPage

/-- Window end of the part_004 revision after the boundary adjustment
(if branch: currentPage < Math.ceil(5 / 2) + 1 sets endPage to 5). -/
def endB (currentPage totalPages : Int) : Int :=
  if currentPage < 4 then 5 else endB0 currentPage totalPages

/-- getPageNumbers from the part_004 revision of PaginationControls.tsx
(maxPagesToShow = 5, all-pages branch taken when
totalPages ≤ maxPagesToShow + 2). -/
def getPageNumbersB (currentPage totalPages : Int) : List PageEntry :=
  if totalPages ≤ 7 then
    (intRange 1 totalPages).map PageEntry.page
  else
    [PageEntry.page 1]
    ++ (if 2 < startB currentPage totalPages then [PageEntry.dots] else [])
    ++ (intRange (startB currentPage totalPages) (endB currentPage totalPages)).map
        PageEntry.page
    ++ (if endB currentPage totalPages < totalPages - 1 then [PageEntry.dots] else [])
    ++ (if 1 < totalPages then [PageEntry.page totalPages] else [])

/-- The numeric entries of a page sequence, in order. -/
def nums (l : List PageEntry) : List Int :=
  l.filterMap (fun e => match e with | .page n => some n | .dots => none)

/-- The number of ellipsis markers in a page sequence. -/
def countDots (l : List PageEntry) : Nat :=
  l.countP (fun e => e == PageEntry.dots)

/-- No two ellipsis markers are adjacent in the sequence. -/
def NoAdjDots (l : List PageEntry) : Prop :=
  l.Chain' (fun a b => a ≠ PageEntry.dots ∨ b ≠ PageEntry.dots)

lemma mem_intRangeAux {x : Int} : ∀ (n : Nat) (a : Int),
    x ∈ intRangeAux n a ↔ a ≤ x ∧ x < a + n := by
  intro n
  induction n with
  | zero => intro a; simp [intRangeAux]
  | succ m ih =>
    intro a
    simp only [intRangeAux, List.mem_cons, ih (a + 1)]
    constructor
    · rintro (rfl | ⟨h1, h2⟩) <;> [skip; skip] <;> push_cast <;> omega
    · rintro ⟨h1, h2⟩
      by_cases hx : x = a
      · exact Or.inl hx
      · right; push_cast at h2 ⊢; omega

lemma intRange_eq_nil {a b : Int} (h : b < a) : intRange a b = [] := by
  unfold intRange
  have h0 : (b + 1 - a).toNat = 0 := by omega
  rw [h0]
  rfl

lemma mem_intRange {n a b : Int} : n ∈ intRange a b ↔ a ≤ n ∧ n ≤ b := by
  unfold intRange
  rw [mem_intRangeAux]
  omega

lemma pairwise_intRangeAux : ∀ (n : Nat) (a : Int),
    (intRangeAux n a).Pairwise (· < ·) := by
  intro n
  induction n with
  | zero => intro a; exact List.Pairwise.nil
  | succ m ih =>
    intro a
    refine List.Pairwise.cons (fun x hx => ?_) (ih (a + 1))
    rw [mem_intRangeAux] at hx
    omega

lemma pairwise_intRange (a b : Int) : (intRange a b).Pairwise (· < ·) :=
  pairwise_intRangeAux _ a

lemma intRange_ne_nil {a b : Int} (h : a ≤ b) : intRange a b ≠ [] := by
  intro hnil
  have hm : a ∈ intRange a b := mem_intRange.mpr ⟨le_refl a, h⟩
  rw [hnil] at hm
  exact absurd hm (List.not_mem_nil a)

lemma intRange_head {a b : Int} (h : a ≤ b) : (intRange a b).head? = some a := by
  unfold intRange
  have h1 : (b + 1 - a).toNat = (b - a).toNat + 1 := by omega
  rw [h1]
  rfl

lemma intRangeAux_getLast : ∀ (n : Nat) (a : Int),
    (intRangeAux (n + 1) a).getLast? = some (a + n) := by
  intro n
  induction n with
  | zero => intro a; simp [intRangeAux]
  | succ m ih =>
    intro a
    have hcons : intRangeAux (m + 1 + 1) a = a :: intRangeAux (m + 1) (a + 1) := rfl
    have hcons2 : intRangeAux (m + 1) (a + 1) = (a + 1) :: intRangeAux m (a + 1 + 1) := rfl
    rw [hcons, hcons2, List.getLast?_cons_cons, ← hcons2, ih (a + 1)]
    simp only [Option.some.injEq]
    push_cast
    ring

lemma intRange_getLast {a b : Int} (h : a ≤ b) : (intRange a b).getLast? = some b := by
  unfold intRange
  have h1 : (b + 1 - a).toNat = (b - a).toNat + 1 := by omega
  rw [h1, intRangeAux_getLast]
  congr 1
  omega

lemma nums_append (l1 l2 : List PageEntry) : nums (l1 ++ l2) = nums l1 ++ nums l2 :=
  List.filterMap_append l1 l2 _

lemma nums_map_page (l : List Int) : nums (l.map PageEntry.page) = l := by
  induction l with
  | nil => rfl
  | cons x t ih => simp only [List.map_cons, nums, List.filterMap_cons] at ih ⊢; rw [ih]

lemma countDots_append (l1 l2 : List PageEntry) :
    countDots (l1 ++ l2) = countDots l1 + countDots l2 :=
  List.countP_append _ _ _

lemma countDots_map_page (l : List Int) : countDots (l.map PageEntry.page) = 0 := by
  induction l with
  | nil => rfl
  | cons x t ih => simpa [countDots] using ih

lemma noAdjDots_of_no_dots {l : List PageEntry} (h : ∀ x ∈ l, x ≠ PageEntry.dots) :
    NoAdjDots l := by
  induction l with
  | nil => exact List.chain'_nil
  | cons a t ih =>
    cases t with
    | nil => exact List.chain'_singleton a
    | cons b t2 =>
      rw [NoAdjDots, List.chain'_cons]
      exact ⟨Or.inl (h a (by simp)), ih (fun x hx => h x (by simp [hx]))⟩

lemma noAdjDots_map_page (l : List Int) : NoAdjDots (l.map PageEntry.page) := by
  refine noAdjDots_of_no_dots ?_
  intro x hx
  rw [List.mem_map] at hx
  obtain ⟨n, _, rfl⟩ := hx
  simp

lemma pairwise_sandwich {s e tp : Int} {pre post : List Int}
    (hpre : pre = [] ∨ (pre = [1] ∧ 1 < s ∧ 1 < tp))
    (hpost : post = [] ∨ (post = [tp] ∧ e < tp)) :
    List.Pairwise (· < ·) (pre ++ (intRange s e ++ post)) := by
  rw [List.pairwise_append]
  refine ⟨?_, ?_, ?_⟩
  · rcases hpre with rfl | ⟨rfl, _, _⟩
    · exact List.Pairwise.nil
    · exact List.pairwise_singleton _ _
  · rw [List.pairwise_append]
    refine ⟨pairwise_intRange s e, ?_, ?_⟩
    · rcases hpost with rfl | ⟨rfl, _⟩
      · exact List.Pairwise.nil
      · exact List.pairwise_singleton _ _
    · intro x hx y hy
      rcases hpost with rfl | ⟨rfl, he⟩
      · exact absurd hy (List.not_mem_nil y)
      · rw [List.mem_singleton] at hy
        subst hy
        have hb := mem_intRange.mp hx
        omega
  · intro x hx y hy
    rcases hpre with rfl | ⟨rfl, hs, htp⟩
    · exact absurd hx (List.not_mem_nil x)
    · rw [List.mem_singleton] at hx
      subst hx
      rw [List.mem_append] at hy
      rcases hy with hy | hy
      · have hb := mem_intRange.mp hy
        omega
      · rcases hpost with rfl | ⟨rfl, he⟩
        · exact absurd hy (List.not_mem_nil y)
        · rw [List.mem_singleton] at hy
          subst hy
          omega

lemma bounds_sandwich {s e tp : Int} {pre post : List Int}
    (hpre : pre = [] ∨ pre = [1]) (hpost : post = [] ∨ post = [tp])
    (hs : 1 ≤ s) (he : e ≤ tp) (htp : 1 ≤ tp) :
    ∀ n ∈ pre ++ (intRange s e ++ post), 1 ≤ n ∧ n ≤ tp := by
  intro n hn
  rw [List.mem_append, List.mem_append] at hn
  rcases hn with hn | hn | hn
  · rcases hpre with rfl | rfl
    · exact absurd hn (List.not_mem_nil n)
    · rw [List.mem_singleton] at hn; omega
  · have hb := mem_intRange.mp hn; omega
  · rcases hpost with rfl | rfl
    · exact absurd hn (List.not_mem_nil n)
    · rw [List.mem_singleton] at hn; omega

lemma noAdjDots_sandwich {s e tp : Int} {A B : List PageEntry}
    (hA : A = [] ∨ A = [PageEntry.page 1] ∨ A = [PageEntry.page 1, PageEntry.dots])
    (hB : B = [] ∨ B = [PageEntry.page tp] ∨ B = [PageEntry.dots, PageEntry.page tp])
    (hmid : A = [PageEntry.page 1, PageEntry.dots] →
            B = [PageEntry.dots, PageEntry.page tp] → s ≤ e) :
    NoAdjDots (A ++ ((intRange s e).map PageEntry.page ++ B)) := by
  rw [NoAdjDots, List.chain'_append]
  refine ⟨?_, ?_, ?_⟩
  · rcases hA with rfl | rfl | rfl
    · exact List.chain'_nil
    · exact List.chain'_singleton _
    · rw [List.chain'_cons]
      exact ⟨Or.inl (by simp), List.chain'_singleton _⟩
  · rw [List.chain'_append]
    refine ⟨noAdjDots_map_page _, ?_, ?_⟩
    · rcases hB with rfl | rfl | rfl
      · exact List.chain'_nil
      · exact List.chain'_singleton _
      · rw [List.chain'_cons]
        exact ⟨Or.inr (by simp), List.chain'_singleton _⟩
    · intro x hx y hy
      have hx2 : x ∈ (intRange s e).map PageEntry.page := by
        obtain ⟨hne, rfl⟩ := List.mem_getLast?_eq_getLast hx
        exact List.getLast_mem hne
      rw [List.mem_map] at hx2
      obtain ⟨n, _, rfl⟩ := hx2
      exact Or.inl (by simp)
  · intro x hx y hy
    rcases hA with rfl | rfl | rfl
    · simp at hx
    · simp only [List.getLast?_singleton, Option.mem_def, Option.some.injEq] at hx
      subst hx
      exact Or.inl (by simp)
    · have hx2 : x = PageEntry.dots := by
        have := hx
        simp only [List.getLast?_cons_cons, List.getLast?_singleton, Option.mem_def,
          Option.some.injEq] at this
        exact this.symm
      subst hx2
      rcases le_or_lt s e with hse | hse
      · have hh : ((intRange s e).map PageEntry.page).head? = some (PageEntry.page s) := by
          obtain ⟨t, ht⟩ : ∃ t, intRange s e = s :: t := by
            cases hc : intRange s e with
            | nil => exact absurd hc (intRange_ne_nil hse)
            | cons a t =>
              have hh2 := intRange_head hse
              rw [hc] at hh2
              simp only [List.head?_cons, Option.some.injEq] at hh2
              exact ⟨t, by rw [hh2]⟩
          rw [ht]
          rfl
        rw [List.head?_append_of_ne_nil] at hy
        · rw [hh, Option.mem_def, Option.some.injEq] at hy
          subst hy
          exact Or.inr (by simp)
        · intro hnil
          rw [List.map_eq_nil_iff] at hnil
          exact intRange_ne_nil hse hnil
      · have hw : intRange s e = [] := intRange_eq_nil hse
        rw [hw] at hy
        simp only [List.map_nil, List.nil_append] at hy
        rcases hB with rfl | rfl | rfl
        · simp at hy
        · simp only [List.head?_cons, Option.mem_def, Option.some.injEq] at hy
          subst hy
          exact Or.inr (by simp)
        · exact absurd (hmid rfl rfl) (by omega)

lemma countDots_sandwich {A B : List PageEntry} {w : List Int}
    (hA : countDots A ≤ 1) (hB : countDots B ≤ 1) :
    countDots (A ++ (w.map PageEntry.page ++ B)) ≤ 2 := by
  rw [countDots_append, countDots_append, countDots_map_page]
  omega

lemma one_le_startA (cp : Int) : 1 ≤ startA cp := by unfold startA; omega

lemma endA_le (cp tp : Int) : endA cp tp ≤ tp := by unfold endA; omega

lemma startA_le_cp {cp : Int} (h : 1 ≤ cp) : startA cp ≤ cp := by unfold startA; omega

lemma cp_le_endA {cp tp : Int} (h1 : 1 ≤ cp) (h2 : cp ≤ tp) : cp ≤ endA cp tp := by
  unfold endA startA; omega

lemma two_le_startB {cp tp : Int} (h : 7 < tp) : 2 ≤ startB cp tp := by
  unfold startB startB0; split_ifs <;> omega

lemma endB_le {cp tp : Int} (h : 7 < tp) : endB cp tp ≤ tp - 1 := by
  unfold endB endB0; split_ifs <;> omega

lemma startB_le_endB {cp tp : Int} (h : 7 < tp) : startB cp tp ≤ endB cp tp := by
  unfold startB startB0 endB endB0; split_ifs <;> omega

lemma startB_le_cp {cp tp : Int} (h7 : 7 < tp) (h2 : 2 ≤ cp) (h3 : cp ≤ tp - 1) :
    startB cp tp ≤ cp := by
  unfold startB startB0; split_ifs <;> omega

lemma cp_le_endB {cp tp : Int} (h7 : 7 < tp) (h2 : 2 ≤ cp) (h3 : cp ≤ tp - 1) :
    cp ≤ endB cp tp := by
  unfold endB endB0; split_ifs <;> omega

/-- Decomposition of the part_003 getPageNumbers on the long branch: the result
is a possibly-empty lead block, the window, and a possibly-empty tail block,
with all the side facts about the blocks that the invariant proofs need. -/
lemma getA_cases (cp tp : Int) (htp : 7 < tp) :
    ∃ A B, getPageNumbersA cp tp
        = A ++ ((intRange (startA cp) (endA cp tp)).map PageEntry.page ++ B)
      ∧ (A = [] ∨ A = [PageEntry.page 1] ∨ A = [PageEntry.page 1, PageEntry.dots])
      ∧ (B = [] ∨ B = [PageEntry.page tp] ∨ B = [PageEntry.dots, PageEntry.page tp])
      ∧ (nums A = [] ∨ (nums A = [1] ∧ 1 < startA cp))
      ∧ (nums B = [] ∨ (nums B = [tp] ∧ endA cp tp < tp))
      ∧ (A = [] → startA cp = 1)
      ∧ (B = [] → endA cp tp = tp)
      ∧ (A = [PageEntry.page 1, PageEntry.dots] →
          B = [PageEntry.dots, PageEntry.page tp] → startA cp ≤ endA cp tp)
      ∧ countDots A ≤ 1 ∧ countDots B ≤ 1 := by
  have hmid : endA cp tp < tp - 1 → startA cp ≤ endA cp tp := by
    unfold endA; omega
  unfold getPageNumbersA
  rw [if_neg (by omega)]
  by_cases h1 : 1 < startA cp
  · by_cases h2 : 2 < startA cp
    · by_cases h3 : endA cp tp < tp
      · by_cases h4 : endA cp tp < tp - 1
        · refine ⟨[PageEntry.page 1, PageEntry.dots], [PageEntry.dots, PageEntry.page tp],
            ?_, Or.inr (Or.inr rfl), Or.inr (Or.inr rfl), Or.inr ⟨rfl, h1⟩,
            Or.inr ⟨rfl, h3⟩, by intro h; exact absurd h (by simp),
            by intro h; exact absurd h (by simp),
            fun _ _ => hmid h4, by simp [countDots], by simp [countDots]⟩
          rw [if_pos h1, if_pos h2, if_pos h3, if_pos h4]
          simp
        · refine ⟨[PageEntry.page 1, PageEntry.dots], [PageEntry.page tp],
            ?_, Or.inr (Or.inr rfl), Or.inr (Or.inl rfl), Or.inr ⟨rfl, h1⟩,
            Or.inr ⟨rfl, h3⟩, by intro h; exact absurd h (by simp),
            by intro h; exact absurd h (by simp),
            by intro _ h; exact absurd h (by simp), by simp [countDots], by simp [countDots]⟩
          rw [if_pos h1, if_pos h2, if_pos h3, if_neg h4]
          simp
      · refine ⟨[PageEntry.page 1, PageEntry.dots], [],
          ?_, Or.inr (Or.inr rfl), Or.inl rfl, Or.inr ⟨rfl, h1⟩,
          Or.inl rfl, by intro h; exact absurd h (by simp),
          by intro _; have := endA_le cp tp; omega,
          by intro _ h; exact absurd h (by simp), by simp [countDots], by simp [countDots]⟩
        rw [if_pos h1, if_pos h2, if_neg h3]
        simp
    · by_cases h3 : endA cp tp < tp
      · by_cases h4 : endA cp tp < tp - 1
        · refine ⟨[PageEntry.page 1], [PageEntry.dots, PageEntry.page tp],
            ?_, Or.inr (Or.inl rfl), Or.inr (Or.inr rfl), Or.inr ⟨rfl, h1⟩,
            Or.inr ⟨rfl, h3⟩, by intro h; exact absurd h (by simp),
            by intro h; exact absurd h (by simp),
            by intro h; exact absurd h (by simp), by simp [countDots], by simp [countDots]⟩
          rw [if_pos h1, if_neg h2, if_pos h3, if_pos h4]
          simp
        · refine ⟨[PageEntry.page 1], [PageEntry.page tp],
            ?_, Or.inr (Or.inl rfl), Or.inr (Or.inl rfl), Or.inr ⟨rfl, h1⟩,
            Or.inr ⟨rfl, h3⟩, by intro h; exact absurd h (by simp),
            by intro h; exact absurd h (by simp),
            by intro h; exact absurd h (by simp), by simp [countDots], by simp [countDots]⟩
          rw [if_pos h1, if_neg h2, if_pos h3, if_neg h4]
          simp
      · refine ⟨[PageEntry.page 1], [],
          ?_, Or.inr (Or.inl rfl), Or.inl rfl, Or.inr ⟨rfl, h1⟩,
          Or.inl rfl, by intro h; exact absurd h (by simp),
          by intro _; have := endA_le cp tp; omega,
          by intro h; exact absurd h (by simp), by simp [countDots], by simp [countDots]⟩
        rw [if_pos h1, if_neg h2, if_neg h3]
        simp
  · have hs1 : startA cp = 1 := by have := one_le_startA cp; omega
    by_cases h3 : endA cp tp < tp
    · by_cases h4 : endA cp tp < tp - 1
      · refine ⟨[], [PageEntry.dots, PageEntry.page tp],
          ?_, Or.inl rfl, Or.inr (Or.inr rfl), Or.inl rfl,
          Or.inr ⟨rfl, h3⟩, fun _ => hs1,
          by intro h; exact absurd h (by simp),
          by intro h; exact absurd h (by simp), by simp [countDots], by simp [countDots]⟩
        rw [if_neg h1, if_pos h3, if_pos h4]
        simp
      · refine ⟨[], [PageEntry.page tp],
          ?_, Or.inl rfl, Or.inr (Or.inl rfl), Or.inl rfl,
          Or.inr ⟨rfl, h3⟩, fun _ => hs1,
          by intro h; exact absurd h (by simp),
          by intro h; exact absurd h (by simp), by simp [countDots], by simp [countDots]⟩
        rw [if_neg h1, if_pos h3, if_neg h4]
        simp
    · refine ⟨[], [],
        ?_, Or.inl rfl, Or.inl rfl, Or.inl rfl,
        Or.inl rfl, fun _ => hs1,
        by intro _; have := endA_le cp tp; omega,
        by intro h; exact absurd h (by simp), by simp [countDots], by simp [countDots]⟩
      rw [if_neg h1, if_neg h3]
      simp

/-- Decomposition of the part_004 getPageNumbers on the long branch. The window
is always nonempty there, the lead block always starts with page 1 and the tail
block always ends with the last page. -/
lemma getB_cases (cp tp : Int) (htp : 7 < tp) :
    ∃ A B, getPageNumbersB cp tp
        = A ++ ((intRange (startB cp tp) (endB cp tp)).map PageEntry.page ++ B)
      ∧ (A = [PageEntry.page 1] ∨ A = [PageEntry.page 1, PageEntry.dots])
      ∧ (B = [PageEntry.page tp] ∨ B = [PageEntry.dots, PageEntry.page tp])
      ∧ nums A = [1] ∧ nums B = [tp]
      ∧ countDots A ≤ 1 ∧ countDots B ≤ 1 := by
  unfold getPageNumbersB
  rw [if_neg (show ¬tp ≤ 7 by omega), if_pos (show (1:Int) < tp by omega)]
  by_cases h1 : 2 < startB cp tp
  · by_cases h2 : endB cp tp < tp - 1
    · refine ⟨[PageEntry.page 1, PageEntry.dots], [PageEntry.dots, PageEntry.page tp],
        ?_, Or.inr rfl, Or.inr rfl, rfl, rfl, by simp [countDots], by simp [countDots]⟩
      rw [if_pos h1, if_pos h2]
      simp
    · refine ⟨[PageEntry.page 1, PageEntry.dots], [PageEntry.page tp],
        ?_, Or.inr rfl, Or.inl rfl, rfl, rfl, by simp [countDots], by simp [countDots]⟩
      rw [if_pos h1, if_neg h2]
      simp
  · by_cases h2 : endB cp tp < tp - 1
    · refine ⟨[PageEntry.page 1], [PageEntry.dots, PageEntry.page tp],
        ?_, Or.inl rfl, Or.inr rfl, rfl, rfl, by simp [countDots], by simp [countDots]⟩
      rw [if_neg h1, if_pos h2]
      simp
    · refine ⟨[PageEntry.page 1], [PageEntry.page tp],
        ?_, Or.inl rfl, Or.inl rfl, rfl, rfl, by simp [countDots], by simp [countDots]⟩
      rw [if_neg h1, if_neg h2]
      simp

lemma intRange_cons {s e : Int} (h : s ≤ e) : ∃ t, intRange s e = s :: t := by
  cases hc : intRange s e with
  | nil => exact absurd hc (intRange_ne_nil h)
  | cons a t =>
    have hh2 := intRange_head h
    rw [hc] at hh2
    simp only [List.head?_cons, Option.some.injEq] at hh2
    exact ⟨t, by rw [hh2]⟩

lemma map_page_head {s e : Int} (h : s ≤ e) (B : List PageEntry) :
    ((intRange s e).map PageEntry.page ++ B).head? = some (PageEntry.page s) := by
  obtain ⟨t, ht⟩ := intRange_cons h
  rw [ht]
  rfl

lemma map_page_getLast {s e : Int} (h : s ≤ e) :
    ((intRange s e).map PageEntry.page).getLast? = some (PageEntry.page e) := by
  rw [List.getLast?_map, intRange_getLast h]
  rfl

/-- Common core: the three C10 invariants hold for any list decomposed as
lead block, window and tail block with the usual side conditions. -/
lemma invariants_of_decomp {L : List PageEntry} {s e tp : Int} {A B : List PageEntry}
    (hL : L = A ++ ((intRange s e).map PageEntry.page ++ B))
    (hA3 : A = [] ∨ A = [PageEntry.page 1] ∨ A = [PageEntry.page 1, PageEntry.dots])
    (hB3 : B = [] ∨ B = [PageEntry.page tp] ∨ B = [PageEntry.dots, PageEntry.page tp])
    (hnA : nums A = [] ∨ (nums A = [1] ∧ 1 < s))
    (hnB : nums B = [] ∨ (nums B = [tp] ∧ e < tp))
    (hmid : A = [PageEntry.page 1, PageEntry.dots] →
            B = [PageEntry.dots, PageEntry.page tp] → s ≤ e)
    (h1s : 1 ≤ s) (hetp : e ≤ tp) (htp1 : 1 < tp) :
    (nums L).Pairwise (· < ·) ∧ (∀ n ∈ nums L, 1 ≤ n ∧ n ≤ tp) ∧ NoAdjDots L := by
  have hnL : nums L = nums A ++ (intRange s e ++ nums B) := by
    rw [hL, nums_append, nums_append, nums_map_page]
  refine ⟨?_, ?_, ?_⟩
  · rw [hnL]
    refine @pairwise_sandwich s e tp (nums A) (nums B) ?_ ?_
    · rcases hnA with h | ⟨h, hs⟩
      · exact Or.inl h
      · exact Or.inr ⟨h, hs, htp1⟩
    · rcases hnB with h | ⟨h, he⟩
      · exact Or.inl h
      · exact Or.inr ⟨h, he⟩
  · rw [hnL]
    refine bounds_sandwich ?_ ?_ h1s hetp (by omega)
    · rcases hnA with h | ⟨h, _⟩
      · exact Or.inl h
      · exact Or.inr h
    · rcases hnB with h | ⟨h, _⟩
      · exact Or.inl h
      · exact Or.inr h
  · rw [hL]
    exact noAdjDots_sandwich hA3 hB3 hmid

/-- C10: for every currentPage and every totalPages at least 1, in both
revisions of getPageNumbers the numeric entries of the emitted sequence are
strictly increasing (so no page number repeats), every numeric entry lies
within the range from 1 to totalPages, and no two ellipsis markers are
adjacent. -/
theorem getPageNumbers_invariants (cp tp : Int) (htp : 1 ≤ tp) :
    ((nums (getPageNumbersA cp tp)).Pairwise (· < ·) ∧
      (∀ n ∈ nums (getPageNumbersA cp tp), 1 ≤ n ∧ n ≤ tp) ∧
      NoAdjDots (getPageNumbersA cp tp)) ∧
    ((nums (getPageNumbersB cp tp)).Pairwise (· < ·) ∧
      (∀ n ∈ nums (getPageNumbersB cp tp), 1 ≤ n ∧ n ≤ tp) ∧
      NoAdjDots (getPageNumbersB cp tp)) := by
  constructor
  · by_cases h7 : tp ≤ 7
    · have hEq : getPageNumbersA cp tp = (intRange 1 tp).map PageEntry.page := by
        unfold getPageNumbersA
        rw [if_pos h7]
      rw [hEq, nums_map_page]
      exact ⟨pairwise_intRange 1 tp, fun n hn => mem_intRange.mp hn, noAdjDots_map_page _⟩
    · obtain ⟨A, B, hL, hA3, hB3, hnA, hnB, _, _, hmid, _, _⟩ :=
        getA_cases cp tp (by omega)
      exact invariants_of_decomp hL hA3 hB3 hnA hnB hmid (one_le_startA cp)
        (endA_le cp tp) (by omega)
  · by_cases h7 : tp ≤ 7
    · have hEq : getPageNumbersB cp tp = (intRange 1 tp).map PageEntry.page := by
        unfold getPageNumbersB
        rw [if_pos h7]
      rw [hEq, nums_map_page]
      exact ⟨pairwise_intRange 1 tp, fun n hn => mem_intRange.mp hn, noAdjDots_map_page _⟩
    · obtain ⟨A, B, hL, hA2, hB2, hnA, hnB, _, _⟩ := getB_cases cp tp (by omega)
      have h7' : (7:Int) < tp := by omega
      refine invariants_of_decomp hL (Or.inr hA2) (Or.inr hB2)
        (Or.inr ⟨hnA, by have := @two_le_startB cp tp h7'; omega⟩)
        (Or.inr ⟨hnB, by have := @endB_le cp tp h7'; omega⟩)
        (fun _ _ => startB_le_endB h7')
        (by have := @two_le_startB cp tp h7'; omega)
        (by have := @endB_le cp tp h7'; omega) (by omega)

/-- C10 witness at currentPage 8, totalPages 20. -/
theorem getPageNumbers_invariants_witness :
    ((nums (getPageNumbersA 8 20)).Pairwise (· < ·) ∧
      (∀ n ∈ nums (getPageNumbersA 8 20), 1 ≤ n ∧ n ≤ 20) ∧
      NoAdjDots (getPageNumbersA 8 20)) ∧
    ((nums (getPageNumbersB 8 20)).Pairwise (· < ·) ∧
      (∀ n ∈ nums (getPageNumbersB 8 20), 1 ≤ n ∧ n ≤ 20) ∧
      NoAdjDots (getPageNumbersB 8 20)) :=
  getPageNumbers_invariants 8 20 (by norm_num)

/-- C3: for every totalPages greater than 7 and every currentPage between 1
and totalPages, both revisions of getPageNumbers emit a sequence that starts
with page 1, ends with page totalPages, contains page currentPage, and holds
at most two ellipsis markers. -/
theorem getPageNumbers_window_shape (cp tp : Int) (h7 : 7 < tp)
    (hc1 : 1 ≤ cp) (hc2 : cp ≤ tp) :
    ((getPageNumbersA cp tp).head? = some (PageEntry.page 1) ∧
     (getPageNumbersA cp tp).getLast? = some (PageEntry.page tp) ∧
     PageEntry.page cp ∈ getPageNumbersA cp tp ∧
     countDots (getPageNumbersA cp tp) ≤ 2) ∧
    ((getPageNumbersB cp tp).head? = some (PageEntry.page 1) ∧
     (getPageNumbersB cp tp).getLast? = some (PageEntry.page tp) ∧
     PageEntry.page cp ∈ getPageNumbersB cp tp ∧
     countDots (getPageNumbersB cp tp) ≤ 2) := by
  constructor
  · obtain ⟨A, B, hL, hA3, hB3, _, _, hA0, hB0, hmid, hcA, hcB⟩ :=
      getA_cases cp tp h7
    have hse : startA cp ≤ endA cp tp :=
      le_trans (startA_le_cp hc1) (cp_le_endA hc1 hc2)
    refine ⟨?_, ?_, ?_, ?_⟩
    · rw [hL]
      rcases hA3 with rfl | rfl | rfl
      · rw [List.nil_append, map_page_head hse, hA0 rfl]
      · rfl
      · rfl
    · rw [hL]
      rcases hB3 with rfl | rfl | rfl
      · rw [List.append_nil, List.getLast?_append_of_ne_nil _ ?_]
        · rw [map_page_getLast hse, hB0 rfl]
        · intro hnil
          rw [List.map_eq_nil_iff] at hnil
          exact intRange_ne_nil hse hnil
      · rw [List.getLast?_append_of_ne_nil _ (by simp),
          List.getLast?_append_of_ne_nil _ (by simp)]
        rfl
      · rw [List.getLast?_append_of_ne_nil _ (by simp),
          List.getLast?_append_of_ne_nil _ (by simp)]
        rfl
    · rw [hL]
      refine List.mem_append_right _ (List.mem_append_left _ ?_)
      rw [List.mem_map]
      exact ⟨cp, mem_intRange.mpr ⟨startA_le_cp hc1, cp_le_endA hc1 hc2⟩, rfl⟩
    · rw [hL]
      exact countDots_sandwich hcA hcB
  · obtain ⟨A, B, hL, hA2, hB2, _, _, hcA, hcB⟩ := getB_cases cp tp h7
    refine ⟨?_, ?_, ?_, ?_⟩
    · rw [hL]
      rcases hA2 with rfl | rfl <;> rfl
    · rw [hL]
      rcases hB2 with rfl | rfl <;>
        rw [List.getLast?_append_of_ne_nil _ (by simp),
          List.getLast?_append_of_ne_nil _ (by simp)] <;> rfl
    · rw [hL]
      by_cases hcp1 : cp = 1
      · subst hcp1
        rcases hA2 with rfl | rfl <;> simp
      · by_cases hcptp : cp = tp
        · subst hcptp
          rcases hB2 with rfl | rfl <;> simp
        · have h2 : 2 ≤ cp := by omega
          have h3 : cp ≤ tp - 1 := by omega
          refine List.mem_append_right _ (List.mem_append_left _ ?_)
          rw [List.mem_map]
          exact ⟨cp, mem_intRange.mpr ⟨startB_le_cp h7 h2 h3, cp_le_endB h7 h2 h3⟩, rfl⟩
    · rw [hL]
      exact countDots_sandwich hcA hcB

/-- C3 witness at currentPage 8, totalPages 20. -/
theorem getPageNumbers_window_shape_witness :
    ((getPageNumbersA 8 20).head? = some (PageEntry.page 1) ∧
     (getPageNumbersA 8 20).getLast? = some (PageEntry.page 20) ∧
     PageEntry.page 8 ∈ getPageNumbersA 8 20 ∧
     countDots (getPageNumbersA 8 20) ≤ 2) ∧
    ((getPageNumbersB 8 20).head? = some (PageEntry.page 1) ∧
     (getPageNumbersB 8 20).getLast? = some (PageEntry.page 20) ∧
     PageEntry.page 8 ∈ getPageNumbersB 8 20 ∧
     countDots (getPageNumbersB 8 20) ≤ 2) :=
  getPageNumbers_window_shape 8 20 (by norm_num) (by norm_num) (by norm_num)

/-- C9: for every totalPages between 0 and 7 and every currentPage, both
revisions of getPageNumbers emit exactly the pages 1 up to totalPages in
order with no ellipsis marker. -/
theorem getPageNumbers_small (cp tp : Int) (h0 : 0 ≤ tp) (h7 : tp ≤ 7) :
    getPageNumbersA cp tp = (intRange 1 tp).map PageEntry.page ∧
    nums (getPageNumbersA cp tp) = intRange 1 tp ∧
    countDots (getPageNumbersA cp tp) = 0 ∧
    getPageNumbersB cp tp = (intRange 1 tp).map PageEntry.page ∧
    nums (getPageNumbersB cp tp) = intRange 1 tp ∧
    countDots (getPageNumbersB cp tp) = 0 := by
  have hA : getPageNumbersA cp tp = (intRange 1 tp).map PageEntry.page := by
    unfold getPageNumbersA
    rw [if_pos h7]
  have hB : getPageNumbersB cp tp = (intRange 1 tp).map PageEntry.page := by
    unfold getPageNumbersB
    rw [if_pos h7]
  exact ⟨hA, by rw [hA, nums_map_page], by rw [hA, countDots_map_page],
    hB, by rw [hB, nums_map_page], by rw [hB, countDots_map_page]⟩

/-- C9 witness: page 2 of a 5-page result yields exactly [1, 2, 3, 4, 5]. -/
theorem getPageNumbers_small_witness :
    intRange 1 5 = [1, 2, 3, 4, 5] ∧
    (getPageNumbersA 2 5 = (intRange 1 5).map PageEntry.page ∧
     nums (getPageNumbersA 2 5) = intRange 1 5 ∧
     countDots (getPageNumbersA 2 5) = 0 ∧
     getPageNumbersB 2 5 = (intRange 1 5).map PageEntry.page ∧
     nums (getPageNumbersB 2 5) = intRange 1 5 ∧
     countDots (getPageNumbersB 2 5) = 0) :=
  ⟨by decide, getPageNumbers_small 2 5 (by norm_num) (by norm_num)⟩

/-- C2 counterexample: the part_003 revision of getPageNumbers (7-wide
window) does not emit the claimed 9-entry sequence at currentPage 8,
totalPages 20, so the claim is false of that cited implementation. -/
theorem getPageNumbers_window5_counterexample :
    getPageNumbersA 8 20 ≠
      [PageEntry.page 1, PageEntry.dots, PageEntry.page 6, PageEntry.page 7,
       PageEntry.page 8, PageEntry.page 9, PageEntry.page 10, PageEntry.dots,
       PageEntry.page 20] := by decide

/-- C2 amended: at currentPage 8 and totalPages 20 the part_004 revision
emits exactly [1, "...", 6, 7, 8, 9, 10, "...", 20], while the part_003
revision (window of width 7) emits [1, "...", 6, 7, 8, 9, 10, 11, 12,
"...", 20]. -/
theorem getPageNumbers_window5 :
    getPageNumbersB 8 20 =
      [PageEntry.page 1, PageEntry.dots, PageEntry.page 6, PageEntry.page 7,
       PageEntry.page 8, PageEntry.page 9, PageEntry.page 10, PageEntry.dots,
       PageEntry.page 20] ∧
    getPageNumbersA 8 20 =
      [PageEntry.page 1, PageEntry.dots, PageEntry.page 6, PageEntry.page 7,
       PageEntry.page 8, PageEntry.page 9, PageEntry.page 10, PageEntry.page 11,
       PageEntry.page 12, PageEntry.dots, PageEntry.page 20] := by
  exact ⟨by decide, by decide⟩

/-! Metadata Client: lib/server/tmdb-api.ts. A network call is represented
by the explicit networkRequest constructor carrying the endpoint and query
parameters fetchFromTmdb would receive, so returning localResult means no
network call happens. -/

/-- A minimal stand-in for a TMDB media item; the search short-circuit
never inspects items, only returns an empty list of them. -/
structure MediaItem where
  id : Int
deriving DecidableEq, Repr

/-- Outcome of a search call: either the locally built empty paginated
response, or a request handed to fetchFromTmdb. -/
inductive SearchOutcome where
  | localResult (page : Int) (results : List MediaItem)
      (total_pages total_results : Int)
  | networkRequest (endpoint : String) (params : List (String × String))
deriving DecidableEq, Repr

/-- searchMovies from lib/server/tmdb-api.ts: the guard is the JS
truthiness test !query, which holds exactly for the empty string. -/
def searchMovies (query : String) (page : Int) : SearchOutcome :=
  if query = "" then .localResult 1 [] 0 0
  else .networkRequest "/search/movie" [("query", query), ("page", toString page)]

/-- searchTvShows from lib/server/tmdb-api.ts. -/
def searchTvShows (query : String) (page : Int) : SearchOutcome :=
  if query = "" then .localResult 1 [] 0 0
  else .networkRequest "/search/tv" [("query", query), ("page", toString page)]

/-- C1 counterexample: the single-space query is whitespace-only, yet both
search functions hand it to the network layer instead of returning the
empty paginated result — the guard tests only for the empty string. -/
theorem search_whitespace_counterexample :
    (" ".toList.all Char.isWhitespace = true) ∧
    searchMovies " " 1 =
      SearchOutcome.networkRequest "/search/movie" [("query", " "), ("page", "1")] ∧
    searchMovies " " 1 ≠ SearchOutcome.localResult 1 [] 0 0 ∧
    searchTvShows " " 1 =
      SearchOutcome.networkRequest "/search/tv" [("query", " "), ("page", "1")] ∧
    searchTvShows " " 1 ≠ SearchOutcome.localResult 1 [] 0 0 := by
  refine ⟨by decide, by decide, by decide, by decide, by decide⟩

/-- C1 amended: exactly the empty query short-circuits to the empty
paginated result page 1 / no results / 0 pages / 0 total without a network
request; every non-empty query (whitespace-only ones included) produces a
network request to the search endpoint. -/
theorem search_empty_query (page : Int) :
    searchMovies "" page = SearchOutcome.localResult 1 [] 0 0 ∧
    searchTvShows "" page = SearchOutcome.localResult 1 [] 0 0 ∧
    (∀ q : String, q ≠ "" →
      searchMovies q page =
        SearchOutcome.networkRequest "/search/movie"
          [("query", q), ("page", toString page)] ∧
      searchTvShows q page =
        SearchOutcome.networkRequest "/search/tv"
          [("query", q), ("page", toString page)]) := by
  refine ⟨rfl, rfl, fun q hq => ⟨?_, ?_⟩⟩
  · unfold searchMovies
    rw [if_neg hq]
  · unfold searchTvShows
    rw [if_neg hq]

/-- C1 witness at the empty query and the single-letter query "a". -/
theorem search_empty_query_witness :
    (searchMovies "" 1 = SearchOutcome.localResult 1 [] 0 0 ∧
     searchTvShows "" 1 = SearchOutcome.localResult 1 [] 0 0 ∧
     (∀ q : String, q ≠ "" →
       searchMovies q 1 =
         SearchOutcome.networkRequest "/search/movie"
           [("query", q), ("page", toString (1:Int))] ∧
       searchTvShows q 1 =
         SearchOutcome.networkRequest "/search/tv"
           [("query", q), ("page", toString (1:Int))])) ∧
    searchMovies "a" 1 =
      SearchOutcome.networkRequest "/search/movie" [("query", "a"), ("page", "1")] :=
  ⟨search_empty_query 1, ((search_empty_query 1).2.2 "a" (by decide)).1.trans (by decide)⟩

/-! Trailer Resolver: the mainTrailer expression of
app/[mediaType]/[id]/page.tsx. -/

/-- A TMDB video object, restricted to the fields the trailer policy and
the player read. -/
structure Video where
  site : String
  type : String
  official : Bool
  key : String
deriving DecidableEq, Repr

/-- Tier 1 test: v.site === 'YouTube' && v.type === 'Trailer' && v.official. -/
def isOfficialYtTrailer (v : Video) : Bool :=
  v.site == "YouTube" && v.type == "Trailer" && v.official

/-- Tier 2 test: v.site === 'YouTube' && v.type === 'Trailer'. -/
def isYtTrailer (v : Video) : Bool :=
  v.site == "YouTube" && v.type == "Trailer"

/-- Tier 3 test: v.site === 'YouTube' && v.type === 'Teaser'. -/
def isYtTeaser (v : Video) : Bool :=
  v.site == "YouTube" && v.type == "Teaser"

/-- The mainTrailer selection: three Array.prototype.find calls chained
with JS short-circuit disjunction (found objects are truthy). -/
def mainTrailer (videos : List Video) : Option Video :=
  ((videos.find? isOfficialYtTrailer).orElse
    (fun _ => videos.find? isYtTrailer)).orElse
    (fun _ => videos.find? isYtTeaser)

/-- C4: mainTrailer picks the first official YouTube Trailer; failing that,
the first YouTube Trailer regardless of the official flag; failing that,
the first YouTube Teaser; otherwise it is absent, and in particular it is
absent on the empty list. -/
theorem mainTrailer_policy :
    (∀ (vs : List Video) (v : Video),
      vs.find? isOfficialYtTrailer = some v → mainTrailer vs = some v) ∧
    (∀ (vs : List Video) (v : Video),
      vs.find? isOfficialYtTrailer = none → vs.find? isYtTrailer = some v →
        mainTrailer vs = some v) ∧
    (∀ (vs : List Video) (v : Video),
      vs.find? isOfficialYtTrailer = none → vs.find? isYtTrailer = none →
        vs.find? isYtTeaser = some v → mainTrailer vs = some v) ∧
    (∀ vs : List Video,
      vs.find? isOfficialYtTrailer = none → vs.find? isYtTrailer = none →
        vs.find? isYtTeaser = none → mainTrailer vs = none) ∧
    mainTrailer [] = none := by
  refine ⟨?_, ?_, ?_, ?_, rfl⟩
  · intro vs v h1
    unfold mainTrailer
    rw [h1]
    rfl
  · intro vs v h1 h2
    unfold mainTrailer
    rw [h1, h2]
    rfl
  · intro vs v h1 h2 h3
    unfold mainTrailer
    rw [h1, h2, h3]
    rfl
  · intro vs h1 h2 h3
    unfold mainTrailer
    rw [h1, h2, h3]
    rfl

/-- The Vimeo Trailer of the spec example. -/
def vimeoTrailer : Video := ⟨"Vimeo", "Trailer", false, "vm"⟩

/-- The YouTube Teaser of the spec example. -/
def ytTeaser : Video := ⟨"YouTube", "Teaser", false, "yt"⟩

/-- C4 witness: on [Vimeo Trailer, YouTube Teaser] the third tier fires and
selects the YouTube Teaser. -/
theorem mainTrailer_policy_witness :
    mainTrailer [vimeoTrailer, ytTeaser] = some ytTeaser :=
  mainTrailer_policy.2.2.1 [vimeoTrailer, ytTeaser] ytTeaser
    (by decide) (by decide) (by decide)

/-! Detail-page fetch effect: the fetchMediaAndVideos useEffect body of
app/[mediaType]/[id]/page.tsx, modelled as a function from the two fetch
outcomes to the component state it leaves behind, plus the page's render
dispatch over that state. -/

/-- Outcome of one browser fetch: a 2xx response with a parsed body, a
non-2xx response (response.ok false), or a transport-level rejection of
the fetch promise itself. -/
inductive FetchOutcome (α : Type) where
  | ok (body : α)
  | httpError (msg : String)
  | reject (msg : String)
deriving DecidableEq, Repr

/-- The state the component holds after the effect settles: media, videos,
error and loading, all initialised to none / [] / none and loading reset to
false in the finally block. -/
structure DetailState where
  media : Option Int
  videos : List Video
  error : Option String
  loading : Bool
deriving DecidableEq, Repr

/-- The try/catch/finally of fetchMediaAndVideos. The media body is stood in
for by its numeric id. A non-ok media response throws, so the catch sets
error. setMedia runs before the videos fetch, so a transport rejection of
the videos fetch lands in the same catch with media already set but the
error state populated; a non-ok videos response takes the else branch and
just sets videos to []. An ok videos response stores
videosData.results || [], here results?.getD. -/
def fetchMediaAndVideos (mediaFetch : FetchOutcome Int)
    (videosFetch : FetchOutcome (Option (List Video))) : DetailState :=
  match mediaFetch with
  | .httpError m => ⟨none, [], some m, false⟩
  | .reject m => ⟨none, [], some m, false⟩
  | .ok d =>
    match videosFetch with
    | .ok results? => ⟨some d, results?.getD [], none, false⟩
    | .httpError _ => ⟨some d, [], none, false⟩
    | .reject m => ⟨some d, [], some m, false⟩

/-- What the page renders for a given state. -/
inductive RenderedView where
  | loadingView
  | errorView (msg : String)
  | notFoundView
  | detailsView (trailer : Option Video)
deriving DecidableEq, Repr

/-- The early returns of MediaDetailPage: loading, then error, then
notFound on missing media, else the details with the selected trailer
(absent trailer renders the explicit no-trailer fallback). -/
def render (s : DetailState) : RenderedView :=
  if s.loading then .loadingView
  else
    match s.error with
    | some m => .errorView m
    | none =>
      match s.media with
      | none => .notFoundView
      | some _ => .detailsView (mainTrailer s.videos)

/-- C5 counterexample: when the media fetch succeeds but the videos fetch
rejects at the transport level, the shared catch sets the error state and
the page renders the page-level error view, not the details with the
no-trailer fallback — contradicting the claim for the transport-rejection
failure mode. -/
theorem detailPage_reject_counterexample :
    render (fetchMediaAndVideos (.ok 603) (.reject "network failure")) =
      RenderedView.errorView "network failure" ∧
    render (fetchMediaAndVideos (.ok 603) (.reject "network failure")) ≠
      RenderedView.detailsView none := by
  exact ⟨rfl, by decide⟩

/-- C5 amended: a non-2xx videos response is isolated — the details render
with an empty videos list, hence the no-trailer fallback, and no error
state — but a transport rejection of the videos fetch is caught by the
shared catch and surfaces the page-level error view. -/
theorem detailPage_partial_failure (d : Int) (m : String) :
    render (fetchMediaAndVideos (.ok d) (.httpError m)) =
      RenderedView.detailsView none ∧
    (fetchMediaAndVideos (.ok d) (.httpError m)).videos = [] ∧
    (fetchMediaAndVideos (.ok d) (.httpError m)).error = none ∧
    render (fetchMediaAndVideos (.ok d) (.reject m)) = RenderedView.errorView m := by
  exact ⟨rfl, rfl, rfl, rfl⟩

/-! Pagination navigation URLs. URLSearchParams is modelled as an ordered
list of key/value pairs; set replaces the value at the first occurrence of
the key, deletes the other occurrences and appends when the key is absent,
per its documented semantics. -/

/-- All pairs of the list whose key is k, in order. -/
def occurrencesOf : List (String × String) → String → List (String × String)
  | [], _ => []
  | p :: rest, k => if p.1 = k then p :: occurrencesOf rest k else occurrencesOf rest k

/-- Delete every pair with key k. -/
def removeKey : List (String × String) → String → List (String × String)
  | [], _ => []
  | p :: rest, k => if p.1 = k then removeKey rest k else p :: removeKey rest k

/-- URLSearchParams.set. -/
def setParam : List (String × String) → String → String → List (String × String)
  | [], k, v => [(k, v)]
  | p :: rest, k, v =>
    if p.1 = k then (k, v) :: removeKey rest k else p :: setParam rest k v

/-- URLSearchParams.get: value of the first pair with the key, if any. -/
def getParam : List (String × String) → String → Option String
  | [], _ => none
  | p :: rest, k => if p.1 = k then some p.2 else getParam rest k

/-- createPageURL of the part_003 revision: copy the ambient search params,
overwrite the page key, and target basePath when truthy, else the current
pathname. The result is the target path with the final parameter list. -/
def createPageURL3 (pathname : String) (basePath : Option String)
    (searchParams : List (String × String)) (pageQueryParam : String)
    (page : Int) : String × List (String × String) :=
  (match basePath with
    | some b => if b = "" then pathname else b
    | none => pathname,
   setParam searchParams pageQueryParam (toString page))

/-- goToPage of the part_003 revision: navigates only when the target is
between 1 and totalPages, otherwise does nothing (none). -/
def goToPage3 (pathname : String) (basePath : Option String)
    (searchParams : List (String × String)) (pageQueryParam : String)
    (totalPages page : Int) : Option (String × List (String × String)) :=
  if 1 ≤ page ∧ page ≤ totalPages then
    some (createPageURL3 pathname basePath searchParams pageQueryParam page)
  else none

/-- createPageUrl of the part_004 revision: builds the parameter list from
scratch with only the page key, re-adding the ambient query parameter only
on the /search base path and only when it is truthy. -/
def createPageUrl4 (basePath : String) (searchParams : List (String × String))
    (page : Int) : String × List (String × String) :=
  let currentSearchQuery : Option String :=
    if basePath = "/search" then getParam searchParams "query" else none
  let params1 := setParam [] "page" (toString page)
  let params2 :=
    match currentSearchQuery with
    | some q => if q = "" then params1 else setParam params1 "query" q
    | none => params1
  (basePath, params2)

/-- handlePageChange of the part_004 revision. -/
def handlePageChange4 (basePath : String) (searchParams : List (String × String))
    (totalPages newPage : Int) : Option (String × List (String × String)) :=
  if 1 ≤ newPage ∧ newPage ≤ totalPages then
    some (createPageUrl4 basePath searchParams newPage)
  else none

lemma occurrencesOf_removeKey {k q : String} (h : q ≠ k) :
    ∀ l : List (String × String), occurrencesOf (removeKey l k) q = occurrencesOf l q := by
  intro l
  induction l with
  | nil => rfl
  | cons p t ih =>
    simp only [removeKey, occurrencesOf]
    by_cases hpk : p.1 = k
    · rw [if_pos hpk, if_neg (fun hq : p.1 = q => h (hq ▸ hpk)), ih]
    · rw [if_neg hpk]
      by_cases hpq : p.1 = q
      · simp only [occurrencesOf]
        rw [if_pos hpq, if_pos hpq, ih]
      · simp only [occurrencesOf]
        rw [if_neg hpq, if_neg hpq, ih]

lemma occurrencesOf_setParam_other {k q : String} (h : q ≠ k) (v : String) :
    ∀ l : List (String × String),
      occurrencesOf (setParam l k v) q = occurrencesOf l q := by
  intro l
  induction l with
  | nil =>
    simp only [setParam, occurrencesOf]
    rw [if_neg (fun hq => h hq.symm)]
  | cons p t ih =>
    simp only [setParam]
    by_cases hpk : p.1 = k
    · rw [if_pos hpk]
      simp only [occurrencesOf]
      rw [if_neg (fun hq : k = q => h hq.symm), if_neg (fun hq : p.1 = q => h (hq ▸ hpk)),
        occurrencesOf_removeKey h t]
    · rw [if_neg hpk]
      simp only [occurrencesOf]
      by_cases hpq : p.1 = q
      · rw [if_pos hpq, if_pos hpq, ih]
      · rw [if_neg hpq, if_neg hpq, ih]

lemma getParam_setParam_self (k v : String) :
    ∀ l : List (String × String), getParam (setParam l k v) k = some v := by
  intro l
  induction l with
  | nil => simp [setParam, getParam]
  | cons p t ih =>
    simp only [setParam]
    by_cases hpk : p.1 = k
    · rw [if_pos hpk]
      simp [getParam]
    · rw [if_neg hpk]
      simp only [getParam]
      rw [if_neg hpk]
      exact ih

/-- C6 counterexample: the part_004 navigation rebuilds the query string
from scratch, so a valid navigation (target 3 of 10) from an ambient query
string holding foo=bar yields only page=3 — the pre-existing foo parameter
is not preserved. -/
theorem createPageUrl4_drops_params :
    handlePageChange4 "/movie/popular" [("foo", "bar")] 10 3 =
      some ("/movie/popular", [("page", "3")]) ∧
    occurrencesOf [("foo", "bar")] "foo" = [("foo", "bar")] ∧
    occurrencesOf [("page", "3")] "foo" = [] := by
  refine ⟨by decide, by decide, by decide⟩

/-- C6 amended: the part_003 navigation does preserve the ambient query
string — for every valid target the produced URL carries the target page
under the page key and, for every other key, exactly the pre-existing
occurrences; the part_004 navigation instead keeps only the page key (plus
the query key on the /search base path). -/
theorem createPageURL3_preserves (pathname : String) (bp : Option String)
    (params : List (String × String)) (key : String) (tp page : Int)
    (h1 : 1 ≤ page) (h2 : page ≤ tp) :
    ∃ u, goToPage3 pathname bp params key tp page = some u ∧
      getParam u.2 key = some (toString page) ∧
      ∀ q, q ≠ key → occurrencesOf u.2 q = occurrencesOf params q := by
  refine ⟨createPageURL3 pathname bp params key page, ?_, ?_, ?_⟩
  · unfold goToPage3
    rw [if_pos ⟨h1, h2⟩]
  · exact getParam_setParam_self key (toString page) params
  · intro q hq
    exact occurrencesOf_setParam_other hq (toString page) params

/-- C6 witness: valid target 3 of 10 with ambient foo=bar under the
part_003 navigation. -/
theorem createPageURL3_preserves_witness :
    ∃ u, goToPage3 "/movie/popular" none [("foo", "bar")] "page" 10 3 = some u ∧
      getParam u.2 "page" = some (toString (3:Int)) ∧
      ∀ q, q ≠ "page" → occurrencesOf u.2 q = occurrencesOf [("foo", "bar")] q :=
  createPageURL3_preserves "/movie/popular" none [("foo", "bar")] "page" 10 3
    (by norm_num) (by norm_num)

/-! Image URL Resolver: getImageUrl of app/[mediaType]/[id]/page.tsx and
getPlaceholderImageUrl of components/common/ClientImage.tsx. -/

/-- The fixed TMDB image base of the source. -/
def TMDB_IMAGE_BASE_URL : String := "https://image.tmdb.org/t/p/"

/-- getImageUrl of the detail page: a truthy path concatenates base, size
token and path; a missing (or empty, hence falsy) path yields the fixed
500x750 placeholder regardless of the requested size. -/
def getImageUrl (path : Option String) (size : String) : String :=
  match path with
  | some p =>
    if p = "" then "https://placehold.co/png/500x750/1f2937/FFFFFF?text=No+Image"
    else TMDB_IMAGE_BASE_URL ++ size ++ p
  | none => "https://placehold.co/png/500x750/1f2937/FFFFFF?text=No+Image"

/-- Does the character list start with pat? -/
def matchesAt : List Char → List Char → Bool
  | [], _ => true
  | _ :: _, [] => false
  | p :: ps, c :: cs => p == c && matchesAt ps cs

/-- Does the character list contain pat as a contiguous run? -/
def containsSub (pat : List Char) : List Char → Bool
  | [] => matchesAt pat []
  | c :: rest => matchesAt pat (c :: rest) || containsSub pat rest

/-- Drop the first occurrence of pat from a character list, if any. -/
def stripFirst (pat : List Char) : List Char → List Char
  | [] => []
  | c :: rest =>
    if matchesAt pat (c :: rest) then (c :: rest).drop pat.length
    else c :: stripFirst pat rest

/-- JS String.prototype.replace with a string pattern and empty
replacement: removes the first occurrence only. -/
def replaceFirst (s pat : String) : String :=
  ⟨stripFirst pat.toList s.toList⟩

/-- getPlaceholderImageUrl of ClientImage.tsx: explicit width and height
(already stringified; none for absent or falsy) are cleaned of a px
fragment and used, defaults 500 and 750 otherwise. -/
def getPlaceholderImageUrl (width height : Option String) : String :=
  let finalWidth :=
    match width with
    | some w => if w = "" then "500" else replaceFirst w "px"
    | none => "500"
  let finalHeight :=
    match height with
    | some h => if h = "" then "750" else replaceFirst h "px"
    | none => "750"
  "https://placehold.co/png/" ++ finalWidth ++ "x" ++ finalHeight ++
    "/1f2937/FFFFFF?text=No+Image"

/-- C7 counterexample: for an absent path the resolver's placeholder is one
fixed 500x750 URL, identical across requested sizes, so it is not
parameterized by the pixel dimensions the size token implies — the w342
request yields a URL that nowhere mentions 342. -/
theorem getImageUrl_placeholder_counterexample :
    getImageUrl none "w342" = getImageUrl none "w500" ∧
    getImageUrl none "w342" =
      "https://placehold.co/png/500x750/1f2937/FFFFFF?text=No+Image" ∧
    containsSub "342".toList (getImageUrl none "w342").toList = false := by
  refine ⟨rfl, rfl, by decide⟩

/-- C7 amended: a present non-empty path resolves to base ++ size ++ path;
an absent path resolves to the fixed 500x750 placeholder for every size
token, a URL that carries no substring of the TMDB image host; the
load-error fallback getPlaceholderImageUrl is parameterized by the
explicit width and height when supplied (dropping a px fragment) and by
the 500x750 defaults otherwise. -/
theorem getImageUrl_spec (p size : String) (hp : p ≠ "") :
    getImageUrl (some p) size = TMDB_IMAGE_BASE_URL ++ size ++ p ∧
    (∀ z : String, getImageUrl none z =
      "https://placehold.co/png/500x750/1f2937/FFFFFF?text=No+Image") ∧
    containsSub TMDB_IMAGE_BASE_URL.toList (getImageUrl none size).toList = false ∧
    getPlaceholderImageUrl (some "342") (some "513") =
      "https://placehold.co/png/342x513/1f2937/FFFFFF?text=No+Image" ∧
    getPlaceholderImageUrl (some "120px") (some "80px") =
      "https://placehold.co/png/120x80/1f2937/FFFFFF?text=No+Image" ∧
    getPlaceholderImageUrl none none =
      "https://placehold.co/png/500x750/1f2937/FFFFFF?text=No+Image" := by
  refine ⟨?_, fun z => rfl, ?_, by decide, by decide, rfl⟩
  · simp only [getImageUrl]
    rw [if_neg hp]
  · show containsSub TMDB_IMAGE_BASE_URL.toList
      "https://placehold.co/png/500x750/1f2937/FFFFFF?text=No+Image".toList = false
    decide

/-- C7 witness at path /abc.jpg and size token w342. -/
theorem getImageUrl_spec_witness :
    (TMDB_IMAGE_BASE_URL ++ "w342" ++ "/abc.jpg" =
      "https://image.tmdb.org/t/p/w342/abc.jpg") ∧
    (getImageUrl (some "/abc.jpg") "w342" =
        TMDB_IMAGE_BASE_URL ++ "w342" ++ "/abc.jpg" ∧
      (∀ z : String, getImageUrl none z =
        "https://placehold.co/png/500x750/1f2937/FFFFFF?text=No+Image") ∧
      containsSub TMDB_IMAGE_BASE_URL.toList (getImageUrl none "w342").toList = false ∧
      getPlaceholderImageUrl (some "342") (some "513") =
        "https://placehold.co/png/342x513/1f2937/FFFFFF?text=No+Image" ∧
      getPlaceholderImageUrl (some "120px") (some "80px") =
        "https://placehold.co/png/120x80/1f2937/FFFFFF?text=No+Image" ∧
      getPlaceholderImageUrl none none =
        "https://placehold.co/png/500x750/1f2937/FFFFFF?text=No+Image") :=
  ⟨by decide, getImageUrl_spec "/abc.jpg" "w342" (by decide)⟩

/-! Details-lookup API route: the GET handler of
app/api/media-details/route.ts. The only constructors that stand for a
call to the metadata provider are callDetails and callVideos; badRequest
is the immediate 400 JSON response, returned before any provider call. -/

/-- The observable action of one GET request. -/
inductive RouteAction where
  | badRequest (msg : String)
  | callDetails (mediaType id : String)
  | callVideos (mediaType id : String)
deriving DecidableEq, Repr

/-- JS truthiness test for searchParams.get results: null and the empty
string are falsy. -/
def jsFalsyStr : Option String → Bool
  | none => true
  | some s => s == ""

/-- The GET handler: 400 when mediaType or id is missing or empty, 400 when
mediaType is neither movie nor tv, else the provider call selected by the
videos=true flag. -/
def mediaDetailsGET (mediaType id videosParam : Option String) : RouteAction :=
  if jsFalsyStr mediaType || jsFalsyStr id then
    .badRequest "mediaType and id parameters are required."
  else if !(mediaType == some "movie") && !(mediaType == some "tv") then
    .badRequest "Invalid mediaType. Must be \"movie\" or \"tv\"."
  else if videosParam == some "true" then
    .callVideos (mediaType.getD "") (id.getD "")
  else
    .callDetails (mediaType.getD "") (id.getD "")

/-- C8: every request with a missing mediaType, a missing id, or a
mediaType outside movie and tv is answered with a 400 bad-request response;
no provider-call action is produced for it. -/
theorem mediaDetailsGET_validates (mt idp vp : Option String)
    (h : mt = none ∨ idp = none ∨ ∀ s, mt = some s → s ≠ "movie" ∧ s ≠ "tv") :
    ∃ msg, mediaDetailsGET mt idp vp = RouteAction.badRequest msg := by
  unfold mediaDetailsGET
  rcases h with rfl | rfl | h
  · refine ⟨"mediaType and id parameters are required.", ?_⟩
    rw [if_pos (by simp [jsFalsyStr])]
  · refine ⟨"mediaType and id parameters are required.", ?_⟩
    rw [if_pos (by simp [jsFalsyStr])]
  · cases mt with
    | none =>
      refine ⟨"mediaType and id parameters are required.", ?_⟩
      rw [if_pos (by simp [jsFalsyStr])]
    | some s =>
      by_cases hs : s = ""
      · subst hs
        refine ⟨"mediaType and id parameters are required.", ?_⟩
        rw [if_pos (by simp [jsFalsyStr])]
      · obtain ⟨hm, ht⟩ := h s rfl
        by_cases hid : jsFalsyStr idp = true
        · refine ⟨"mediaType and id parameters are required.", ?_⟩
          rw [if_pos (by simp [hid])]
        · refine ⟨"Invalid mediaType. Must be \"movie\" or \"tv\".", ?_⟩
          rw [if_neg (by simp [jsFalsyStr, hs]; simpa using hid),
            if_pos (by simp [hm, ht])]

/-- C8 witness: the bogus mediaType is rejected with a 400 response. -/
theorem mediaDetailsGET_validates_witness :
    ∃ msg, mediaDetailsGET (some "bogus") (some "42") none =
      RouteAction.badRequest msg :=
  mediaDetailsGET_validates (some "bogus") (some "42") none
    (Or.inr (Or.inr (fun s hs => by
      cases hs
      exact ⟨by decide, by decide⟩)))

end MovieExplorer
